import Mathlib

/-!
Verification of the vLLM TorchServe handler (`ts/torch_handler/vllm_handler.py`).

The Python source is shallowly embedded: dictionaries with heterogeneous values
become association lists over a small `Json` value type, Python exceptions become
an `Except PyErr` result, the mutable `self.lora_ids` table is threaded as explicit
state, and the external asynchronous engine is a parameter producing the finite
list of outputs its generator yields.  Serialization (`json.dumps` and
`model_dump_json`) is modelled as producing the corresponding `Json` tree, so
"parsed as JSON" properties are stated through `Json` field accessors.
-/

/-- Values appearing in request payloads and configuration mappings,
corresponding to the JSON-like Python values the handler manipulates. -/
inductive Json where
  | null
  | jbool (b : Bool)
  | jint (n : Int)
  | jstr (s : String)
  | jarr (xs : List Json)
  | jobj (fields : List (String × Json))

/-- Python truthiness of a value, as used by `or` and `if`. -/
def Json.truthy : Json → Bool
  | .null => false
  | .jbool b => b
  | .jint n => n != 0
  | .jstr s => !s.isEmpty
  | .jarr xs => !xs.isEmpty
  | .jobj fs => !fs.isEmpty

/-- Python `len`; `none` models the `TypeError` raised on values without a length. -/
def Json.pyLen? : Json → Option Nat
  | .jstr s => some s.length
  | .jarr xs => some xs.length
  | .jobj fs => some fs.length
  | _ => none

/-- View a value as a Python `str`. -/
def Json.asStr? : Json → Option String
  | .jstr s => some s
  | _ => none

/-- View a value as a Python `dict`. -/
def Json.asObj? : Json → Option (List (String × Json))
  | .jobj fs => some fs
  | _ => none

/-- Field access on a parsed JSON object. -/
def Json.get? : Json → String → Option Json
  | .jobj fs, k => fs.lookup k
  | _, _ => none

/-- Index access on a parsed JSON array. -/
def Json.idx? : Json → Nat → Option Json
  | .jarr xs, i => xs[i]?
  | _, _ => none

/-- Python exceptions that the handler code can raise. -/
inductive PyErr where
  | assertionError (msg : String)
  | typeError
  | attributeError
  | indexError
  | unicodeDecodeError
  | unboundLocal (name : String)
  deriving Repr, DecidableEq

/-- Lift an optional value into `Except`, raising `e` on `none`. -/
def ofOption (e : PyErr) : Option α → Except PyErr α
  | some a => .ok a
  | none => .error e

/-- Payload stored under the "data" or "body" field of a request item:
either raw bytes or an already-structured mapping. -/
inductive PyVal where
  | bytes (bs : List UInt8)
  | dict (d : List (String × Json))

/-- Python truthiness for request payload values. -/
def PyVal.truthy : PyVal → Bool
  | .bytes bs => !bs.isEmpty
  | .dict d => !d.isEmpty

/-- One item of the inbound request batch, with its optional "data" and "body" fields. -/
structure ReqItem where
  data : Option PyVal
  body : Option PyVal

/-- Value held by the local variable `data` in `preprocess` after the byte-decoding
step: a decoded string, a structured mapping, or Python `None`. -/
inductive Payload where
  | str (s : String)
  | dict (d : List (String × Json))
  | pynone

/-- Continuation byte test for UTF-8 decoding. -/
def isCont (b : UInt8) : Bool := 0x80 ≤ b && b ≤ 0xBF

/-- Strict UTF-8 decoding of a byte sequence, as performed by Python's
`bytes.decode("utf-8")`: rejects overlong forms, surrogates and values
above U+10FFFF; `none` models the `UnicodeDecodeError`. -/
def utf8Decode : List UInt8 → Option (List Char)
  | [] => some []
  | b :: rest =>
    if b ≤ 0x7F then
      (utf8Decode rest).map (Char.ofNat b.toNat :: ·)
    else if 0xC2 ≤ b && b ≤ 0xDF then
      match rest with
      | c :: rest2 =>
        if isCont c then
          (utf8Decode rest2).map (Char.ofNat ((b.toNat - 0xC0) * 64 + (c.toNat - 0x80)) :: ·)
        else none
      | [] => none
    else if b == 0xE0 then
      match rest with
      | c1 :: c2 :: rest2 =>
        if (0xA0 ≤ c1 && c1 ≤ 0xBF) && isCont c2 then
          (utf8Decode rest2).map
            (Char.ofNat ((b.toNat - 0xE0) * 4096 + (c1.toNat - 0x80) * 64 + (c2.toNat - 0x80)) :: ·)
        else none
      | _ => none
    else if (0xE1 ≤ b && b ≤ 0xEC) || b == 0xEE || b == 0xEF then
      match rest with
      | c1 :: c2 :: rest2 =>
        if isCont c1 && isCont c2 then
          (utf8Decode rest2).map
            (Char.ofNat ((b.toNat - 0xE0) * 4096 + (c1.toNat - 0x80) * 64 + (c2.toNat - 0x80)) :: ·)
        else none
      | _ => none
    else if b == 0xED then
      match rest with
      | c1 :: c2 :: rest2 =>
        if (0x80 ≤ c1 && c1 ≤ 0x9F) && isCont c2 then
          (utf8Decode rest2).map
            (Char.ofNat ((b.toNat - 0xE0) * 4096 + (c1.toNat - 0x80) * 64 + (c2.toNat - 0x80)) :: ·)
        else none
      | _ => none
    else if b == 0xF0 then
      match rest with
      | c1 :: c2 :: c3 :: rest2 =>
        if ((0x90 ≤ c1 && c1 ≤ 0xBF) && isCont c2) && isCont c3 then
          (utf8Decode rest2).map
            (Char.ofNat ((b.toNat - 0xF0) * 262144 + (c1.toNat - 0x80) * 4096 +
              (c2.toNat - 0x80) * 64 + (c3.toNat - 0x80)) :: ·)
        else none
      | _ => none
    else if 0xF1 ≤ b && b ≤ 0xF3 then
      match rest with
      | c1 :: c2 :: c3 :: rest2 =>
        if (isCont c1 && isCont c2) && isCont c3 then
          (utf8Decode rest2).map
            (Char.ofNat ((b.toNat - 0xF0) * 262144 + (c1.toNat - 0x80) * 4096 +
              (c2.toNat - 0x80) * 64 + (c3.toNat - 0x80)) :: ·)
        else none
      | _ => none
    else if b == 0xF4 then
      match rest with
      | c1 :: c2 :: c3 :: rest2 =>
        if ((0x80 ≤ c1 && c1 ≤ 0x8F) && isCont c2) && isCont c3 then
          (utf8Decode rest2).map
            (Char.ofNat ((b.toNat - 0xF0) * 262144 + (c1.toNat - 0x80) * 4096 +
              (c2.toNat - 0x80) * 64 + (c3.toNat - 0x80)) :: ·)
        else none
      | _ => none
    else none

/-- Attribute dictionary of a Python object, in declaration order, with the
attribute values modelled as `Json`. -/
abbrev PyObj := List (String × Json)

/-- Python `setattr` restricted to attributes that already exist: replaces the
value stored under `k`, keeping declaration order, and is a no-op when `k`
is not an attribute (the caller `_set_attr_value` only invokes it on existing
attributes). -/
def pySetattr : PyObj → String → Json → PyObj
  | [], _, _ => []
  | (k0, v0) :: rest, k, v =>
    if k0 = k then (k0, v) :: rest else (k0, v0) :: pySetattr rest k v

/-- Source lines 159-163: for every key of `config` that names an existing
attribute of `obj`, overwrite that attribute with the supplied value;
other keys are ignored silently. -/
def _set_attr_value (obj : PyObj) (config : List (String × Json)) : PyObj :=
  config.foldl (fun o kv => if (o.lookup kv.1).isSome then pySetattr o kv.1 kv.2 else o) obj

/-- Modelled from the vLLM library (an external dependency, not part of this
repository): the attribute dictionary of `AsyncEngineArgs(model=model)`.  Only
the attribute names matter to the handler's permissive merge, so a representative
subset of the constructor's fields is included, with `model` first. -/
def AsyncEngineArgs (model : Json) : PyObj :=
  [("model", model), ("served_model_name", .null), ("tokenizer", .null),
   ("skip_tokenizer_init", .jbool false), ("dtype", .jstr "auto"),
   ("seed", .jint 0), ("max_model_len", .null), ("trust_remote_code", .jbool false),
   ("enable_lora", .jbool false), ("max_loras", .jint 1)]

/-- Modelled from the vLLM library (an external dependency, not part of this
repository): the attribute dictionary of a default-constructed `SamplingParams()`.
Only the attribute names matter to the handler's permissive merge, so a
representative subset of the real fields is included. -/
def SamplingParams : PyObj :=
  [("n", .jint 1), ("best_of", .null), ("max_tokens", .jint 16),
   ("min_tokens", .jint 0), ("stop", .null), ("seed", .null),
   ("ignore_eos", .jbool false), ("logprobs", .null)]

/-- Source lines 141-145: default-construct sampling parameters, then overwrite
every field for which the request supplies a same-named key. -/
def _get_sampling_params (req_data : List (String × Json)) : PyObj :=
  _set_attr_value SamplingParams req_data

/-- Model of `pathlib.Path(a).joinpath(b)` rendered as a string: an absolute
second component replaces the first, otherwise the components are joined with
a separator. -/
def pathJoin (a b : String) : String :=
  if b.startsWith "/" then b else a ++ "/" ++ b

/-- Source lines 124-135: resolve the model location.  `fs` is the filesystem
existence predicate standing for `Path.exists`.  Prefer a non-empty `model`
value from the engine-config sub-section; otherwise require a non-empty
`model_path`, resolve it against the model directory, and fall back to the raw
relative path when the resolved path does not exist on disk. -/
def resolveModel (model_dir : String) (fs : String → Bool)
    (handler_config : List (String × Json)) (vllm_engine_params : List (String × Json)) :
    Except PyErr Json :=
  let model := (vllm_engine_params.lookup "model").getD (.jobj [])
  match model.pyLen? with
  | none => .error .typeError
  | some l =>
    if l = 0 then
      let model_path := (handler_config.lookup "model_path").getD (.jobj [])
      match model_path.pyLen? with
      | none => .error .typeError
      | some lp =>
        if lp > 0 then
          match model_path.asStr? with
          | none => .error .typeError
          | some mp =>
            let m := pathJoin model_dir mp
            if fs m then .ok (.jstr m) else .ok model_path
        else .error (.assertionError "please define model in vllm_engine_config or model_path in handler")
    else .ok model

/-- Source lines 122-139: build the engine configuration, resolving the model
location and then applying the permissive merge of the engine-config
sub-section onto the constructed arguments object. -/
def _get_vllm_engine_config (model_dir : String) (fs : String → Bool)
    (handler_config : List (String × Json)) : Except PyErr PyObj :=
  match ((handler_config.lookup "vllm_engine_config").getD (.jobj [])).asObj? with
  | none => .error .attributeError
  | some vllm_engine_params =>
    match resolveModel model_dir fs handler_config vllm_engine_params with
    | .error e => .error e
    | .ok model => .ok (_set_attr_value (AsyncEngineArgs model) vllm_engine_params)

/-- Reference to a resolved adapter, mirroring `LoRARequest(name, id, path)`. -/
structure LoRARequest where
  lora_name : String
  lora_int_id : Nat
  lora_path : String
  deriving Repr, DecidableEq

/-- Process-lifetime table `self.lora_ids`, mapping adapter names to their
numeric identifiers in insertion order. -/
abbrev LoraMap := List (String × Nat)

/-- Python `dict.setdefault`: return the stored value when the key is present,
otherwise insert the supplied default at the end and return it. -/
def setdefault (m : LoraMap) (k : String) (v : Nat) : Nat × LoraMap :=
  match m.lookup k with
  | some x => (x, m)
  | none => (v, m ++ [(k, v)])

/-- Source lines 147-157: resolve the optional adapter of one request.  Returns
the adapter reference (or `none` when no adapter name is given) together with
the updated identifier table.  The identifier default `len + 1` is evaluated
before `setdefault` runs, as in the source. -/
def _get_lora_request (model_dir : String) (adapters : List (String × Json))
    (lora_ids : LoraMap) (req_data : List (String × Json)) :
    Except PyErr (Option LoRARequest × LoraMap) :=
  let adapter_name := (req_data.lookup "lora_adapter").getD (.jstr "")
  match adapter_name.pyLen? with
  | none => .error .typeError
  | some alen =>
    if alen > 0 then
      match adapter_name.asStr? with
      | none => .error .typeError
      | some name =>
        let adapter_path := (adapters.lookup name).getD (.jstr "")
        match adapter_path.pyLen? with
        | none => .error .typeError
        | some plen =>
          if plen > 0 then
            let pair := setdefault lora_ids name (lora_ids.length + 1)
            match adapter_path.asStr? with
            | none => .error .typeError
            | some pstr => .ok (some ⟨name, pair.1, pathJoin model_dir pstr⟩, pair.2)
          else .error (.assertionError (name ++ " misses adapter path"))
    else .ok (none, lora_ids)

/-- Identifier table reached after a sequence of requests each naming one
adapter; a request whose resolution raises leaves the table as the source
left it before the failing statement. -/
def runLora (model_dir : String) (adapters : List (String × Json)) :
    List String → LoraMap → LoraMap
  | [], m => m
  | n :: ns, m =>
    match _get_lora_request model_dir adapters m [("lora_adapter", Json.jstr n)] with
    | .ok (_, m2) => runLora model_dir adapters ns m2
    | .error _ => runLora model_dir adapters ns m

/-- Invariant of the identifier table: identifiers are exactly 1, 2, ... in
insertion order and names are never repeated. -/
def LoraWF (m : LoraMap) : Prop :=
  m.map Prod.snd = List.range' 1 m.length ∧ (m.map Prod.fst).Nodup

/-- Normalized request tuple produced by `prepare_completion_request`:
prompt (Python `None` when absent), raw streaming-flag value, sampling
parameters, optional adapter reference. -/
abbrev Prepared := Option Json × Json × PyObj × Option LoRARequest

/-- Source lines 115-120: extract prompt and streaming flag, build sampling
parameters and resolve the adapter.  A payload that is not a mapping (such as
the decoded string of a bytes request, or `None`) has no `get` method, so the
lookup raises an attribute error. -/
def prepare_completion_request (model_dir : String) (adapters : List (String × Json))
    (lora_ids : LoraMap) (request : Payload) : Except PyErr (Prepared × LoraMap) :=
  match request with
  | .dict d =>
    let prompt := d.lookup "prompt"
    let stream := (d.lookup "stream").getD (.jbool false)
    let sampling_params := _get_sampling_params d
    match _get_lora_request model_dir adapters lora_ids d with
    | .ok (lora_request, m2) => .ok ((prompt, stream, sampling_params, lora_request), m2)
    | .error e => .error e
  | _ => .error .attributeError

/-- Byte-decoding step of `preprocess` (source lines 61-62): raw bytes are
decoded as UTF-8 text; a structured mapping or an absent payload passes
through unchanged. -/
def normalizePayload : Option PyVal → Except PyErr Payload
  | some (.bytes bs) =>
    match utf8Decode bs with
    | some cs => .ok (.str (String.mk cs))
    | none => .error .unicodeDecodeError
  | some (.dict d) => .ok (.dict d)
  | none => .ok .pynone

/-- Source lines 56-64: assert a batch of exactly one item, extract its payload
from the "data" field or, when that is missing or falsy, the "body" field,
decode raw bytes, and translate the payload into the normalized tuple. -/
def preprocess (model_dir : String) (adapters : List (String × Json))
    (lora_ids : LoraMap) (requests : List ReqItem) :
    Except PyErr (List Prepared × LoraMap) :=
  match requests with
  | [req_data] =>
    let data : Option PyVal :=
      match req_data.data with
      | some v => if v.truthy then some v else req_data.body
      | none => req_data.body
    match normalizePayload data with
    | .error e => .error e
    | .ok payload =>
      match prepare_completion_request model_dir adapters lora_ids payload with
      | .ok (tup, m2) => .ok ([tup], m2)
      | .error e => .error e
  | _ => .error (.assertionError "Expecting batch_size = 1")

/-- One element of an engine output's `outputs` list: accumulated text and
token identifiers so far. -/
structure CompletionOutput where
  text : String
  token_ids : List Int
  deriving Repr, DecidableEq

/-- One output event yielded by the engine's generator. -/
structure RequestOutput where
  finished : Bool
  outputs : List CompletionOutput
  deriving Repr, DecidableEq

/-- Choice entry of the non-streaming completion envelope; `logprobs` is
always serialized as null by this handler. -/
structure CompletionResponseChoice where
  index : Nat
  text : String

/-- Usage block of the completion envelope. -/
structure UsageInfo where
  prompt_tokens : Nat
  completion_tokens : Nat
  total_tokens : Nat

/-- Non-streaming completion envelope assembled at source lines 102-108. -/
structure CompletionResponse where
  id : String
  created : Int
  model : String
  choices : List CompletionResponseChoice
  usage : UsageInfo

/-- Serialization of a choice entry. -/
def CompletionResponseChoice.toJson (c : CompletionResponseChoice) : Json :=
  .jobj [("index", .jint c.index), ("text", .jstr c.text), ("logprobs", .null)]

/-- Serialization of the usage block. -/
def UsageInfo.toJson (u : UsageInfo) : Json :=
  .jobj [("prompt_tokens", .jint u.prompt_tokens),
         ("completion_tokens", .jint u.completion_tokens),
         ("total_tokens", .jint u.total_tokens)]

/-- Serialization of the completion envelope, modelling `model_dump_json`. -/
def CompletionResponse.toJson (r : CompletionResponse) : Json :=
  .jobj [("id", .jstr r.id), ("created", .jint r.created), ("model", .jstr r.model),
         ("choices", .jarr (r.choices.map CompletionResponseChoice.toJson)),
         ("usage", r.usage.toJson)]

/-- Intermediate result dictionary built at source lines 75-78. -/
structure StreamResult where
  text : String
  tokens : Int
  deriving Repr, DecidableEq

/-- Serialization of the intermediate result, modelling `json.dumps`. -/
def StreamResult.toJson (r : StreamResult) : Json :=
  .jobj [("text", .jstr r.text), ("tokens", .jint r.tokens)]

/-- One call to `send_intermediate_predict_response`: the serialized payload
list, the result label and the HTTP status it was pushed with. -/
structure IntermediateResponse where
  payload : List Json
  label : String
  status : Nat

/-- Intermediate push performed for one streaming result (source lines 80-82). -/
def mkIntermediate (r : StreamResult) : IntermediateResponse :=
  ⟨[r.toJson], "Result", 200⟩

/-- Local state of the event-consumption loop in `inference`: the emitted-text
length marker, the loop variable `output`, the variable `result`, and the
intermediate responses pushed so far.  `output` and `result` start unbound. -/
structure InferState where
  text_len : Nat
  output : Option RequestOutput
  result : Option StreamResult
  pushed : List IntermediateResponse

/-- Body of `async for output in generator` (source lines 73-82): for a
non-final event under streaming, slice off the newly appended text, package it
with the latest token identifier, push it, and advance the length marker;
otherwise only the loop variable advances. -/
def inferStep (stream : Json) (st : InferState) (output : RequestOutput) :
    Except PyErr InferState :=
  if !output.finished && stream.truthy then
    match output.outputs[0]? with
    | none => .error .indexError
    | some o =>
      match o.token_ids.getLast? with
      | none => .error .indexError
      | some tok =>
        let result : StreamResult := ⟨o.text.drop st.text_len, tok⟩
        .ok ⟨o.text.length, some output, some result, st.pushed ++ [mkIntermediate result]⟩
  else .ok { st with output := some output }

/-- Source lines 72-110 without the generator construction: consume the event
sequence, then assemble the final return value.  Reading a never-assigned
variable models Python's unbound-local failure. -/
def consumeEvents (stream : Json) (request_id : String) (created : Int)
    (events : List RequestOutput) :
    Except PyErr (List IntermediateResponse × List Json) :=
  match events.foldlM (inferStep stream) ⟨0, none, none, []⟩ with
  | .error e => .error e
  | .ok st =>
    if !stream.truthy then
      match st.output with
      | none => .error (.unboundLocal "output")
      | some out =>
        match out.outputs[0]? with
        | none => .error .indexError
        | some o =>
          let choices := [CompletionResponseChoice.mk 0 o.text]
          let usage := UsageInfo.mk 0 0 0
          let result := CompletionResponse.mk request_id created "model_name" choices usage
          .ok (st.pushed, [result.toJson])
    else
      match st.result with
      | none => .error (.unboundLocal "result")
      | some r => .ok (st.pushed, [r.toJson])

/-- Abstraction of `self.vllm_engine.generate`: given prompt, sampling
parameters, request identifier and optional adapter reference, the finite
sequence of events its generator yields. -/
abbrev Engine := Option Json → PyObj → String → Option LoRARequest → List RequestOutput

/-- Source lines 66-110: unpack the single prepared tuple, start generation and
consume its events. -/
def inference (engine : Engine) (request_id : String) (created : Int)
    (input_batch : List Prepared) :
    Except PyErr (List IntermediateResponse × List Json) :=
  match input_batch[0]? with
  | none => .error .indexError
  | some (prompt, stream, params, lora) =>
    consumeEvents stream request_id created (engine prompt params request_id lora)

/-- Source lines 112-113: identity pass-through. -/
def postprocess (inference_outputs : List IntermediateResponse × List Json) :
    Except PyErr (List IntermediateResponse × List Json) :=
  .ok inference_outputs

/-- Source lines 41-54 (metrics timing omitted): preprocessing, inference and
postprocessing in sequence, threading the adapter-identifier table and
exposing both the pushed intermediate responses and the returned output. -/
def handle (model_dir : String) (adapters : List (String × Json)) (lora_ids : LoraMap)
    (engine : Engine) (request_id : String) (created : Int)
    (requests : List ReqItem) :
    Except PyErr (List IntermediateResponse × List Json) :=
  match preprocess model_dir adapters lora_ids requests with
  | .error e => .error e
  | .ok (batch, _) =>
    match inference engine request_id created batch with
    | .error e => .error e
    | .ok out => postprocess out

/-- Text field of a pushed intermediate response, read back through the
serialized JSON payload. -/
def intermediateText (p : IntermediateResponse) : String :=
  ((p.payload[0]?.bind (Json.get? · "text")).bind Json.asStr?).getD ""

/-- Concatenation of the text fields of pushed intermediate responses, in
emission order. -/
def joinTexts : List IntermediateResponse → String
  | [] => ""
  | p :: ps => intermediateText p ++ joinTexts ps

/-- Accumulated text carried by an event's first output. -/
def headText (e : RequestOutput) : String :=
  ((e.outputs[0]?).map CompletionOutput.text).getD ""

/-- Accumulated texts of the non-final events, in order. -/
def nfTexts (events : List RequestOutput) : List String :=
  (events.filter (fun e => !e.finished)).map headText

/-- Full generated text of a request: the accumulated text carried by the last
event the engine yields. -/
def engineFullText (events : List RequestOutput) : String :=
  ((events.getLast?.bind (fun e => e.outputs[0]?)).map CompletionOutput.text).getD ""

/-- Prefix order on strings. -/
def IsPre (a b : String) : Prop := ∃ c, b = a ++ c

/-! Helper lemmas about association lists and strings. -/

theorem lookup_none_iff {β : Type} (l : List (String × β)) (a : String) :
    l.lookup a = none ↔ a ∉ l.map Prod.fst := by
  induction l with
  | nil => simp [List.lookup]
  | cons kv rest ih =>
    obtain ⟨k, v⟩ := kv
    by_cases hk : a = k
    · subst hk
      simp [List.lookup]
    · have hbeq : (a == k) = false := by simp [hk]
      simp [List.lookup, hbeq, ih, hk]

theorem lookup_some_ne_nil {β : Type} {l : List (String × β)} {a : String} {v : β}
    (h : l.lookup a = some v) : l ≠ [] := by
  intro he
  subst he
  simp [List.lookup] at h

theorem lookup_append_right {β : Type} {l1 : List (String × β)} (l2 : List (String × β))
    {a : String} (h : l1.lookup a = none) : (l1 ++ l2).lookup a = l2.lookup a := by
  induction l1 with
  | nil => rfl
  | cons kv rest ih =>
    obtain ⟨k, v⟩ := kv
    by_cases hk : a = k
    · subst hk
      simp only [List.lookup, beq_self_eq_true] at h
      exact absurd h (by simp)
    · have hbeq : (a == k) = false := by simp [hk]
      simp only [List.lookup, hbeq] at h
      rw [List.cons_append]
      simp only [List.lookup, hbeq]
      exact ih h

theorem str_len_pos {s : String} (h : s ≠ "") : 0 < s.length := by
  cases s with
  | mk d =>
    cases d with
    | nil => simp at h
    | cons c cs => simp [String.length]

theorem sdrop_append (a b : String) : (a ++ b).drop a.length = b := by
  apply String.ext
  simp [String.data_drop]

theorem sdrop_self (a : String) : a.drop a.length = "" := by
  apply String.ext
  simp [String.data_drop]

theorem sdrop_zero (a : String) : a.drop 0 = a := by
  apply String.ext
  simp [String.data_drop]

theorem intermediateText_mk (r : StreamResult) :
    intermediateText (mkIntermediate r) = r.text := rfl

theorem joinTexts_concat (l : List IntermediateResponse) (q : IntermediateResponse) :
    joinTexts (l ++ [q]) = joinTexts l ++ intermediateText q := by
  induction l with
  | nil => simp [joinTexts, String.append_empty, String.empty_append]
  | cons p ps ih => simp [joinTexts, ih, String.append_assoc]

theorem isPre_trans {a b c : String} (h1 : IsPre a b) (h2 : IsPre b c) : IsPre a c := by
  obtain ⟨x, hx⟩ := h1
  obtain ⟨y, hy⟩ := h2
  exact ⟨x ++ y, by rw [hy, hx, String.append_assoc]⟩

theorem chain_last (l : List String) (a : String) (h : List.Chain' IsPre (a :: l)) :
    IsPre a (l.getLast?.getD a) := by
  induction l generalizing a with
  | nil => exact ⟨"", (String.append_empty a).symm⟩
  | cons b t ih =>
    rw [List.chain'_cons] at h
    have hb := ih b h.2
    have : ((b :: t).getLast?.getD a) = (t.getLast?.getD b) := by
      cases t with
      | nil => rfl
      | cons x y =>
        rw [List.getLast?_cons_cons]
        cases hx : (x :: y).getLast? with
        | none => exact absurd (List.getLast?_eq_none_iff.mp hx) (by simp)
        | some z => rfl
    rw [this]
    exact isPre_trans h.1 hb

theorem lastD_cons (l : List String) (a x : String) :
    (a :: l).getLast?.getD x = l.getLast?.getD a := by
  cases l with
  | nil => rfl
  | cons b t =>
    rw [List.getLast?_cons_cons]
    cases hx : (b :: t).getLast? with
    | none => exact absurd (List.getLast?_eq_none_iff.mp hx) (by simp)
    | some z => rfl

theorem nfTexts_cons_final {e : RequestOutput} (rest : List RequestOutput)
    (hf : e.finished = true) : nfTexts (e :: rest) = nfTexts rest := by
  simp [nfTexts, List.filter, hf]

theorem nfTexts_cons_nonfinal {e : RequestOutput} {o : CompletionOutput}
    (rest : List RequestOutput) (hf : e.finished = false) (ho : e.outputs[0]? = some o) :
    nfTexts (e :: rest) = o.text :: nfTexts rest := by
  simp [nfTexts, List.filter, hf, headText, ho]

/-! Helper lemmas about the event-consumption loop. -/

theorem foldlM_skip (s : Json) (events : List RequestOutput) (st : InferState)
    (h : ∀ e ∈ events, (!e.finished && s.truthy) = false) :
    events.foldlM (inferStep s) st
      = .ok { st with output := match events.getLast? with
                                | some e => some e
                                | none => st.output } := by
  induction events generalizing st with
  | nil => rfl
  | cons e rest ih =>
    have hc := h e (List.mem_cons_self e rest)
    have hstep : inferStep s st e = .ok { st with output := some e } := by
      simp [inferStep, hc]
    rw [List.foldlM_cons, hstep]
    show rest.foldlM (inferStep s) { st with output := some e } = _
    rw [ih _ (fun x hx => h x (List.mem_cons_of_mem _ hx))]
    cases rest with
    | nil => rfl
    | cons b t =>
      rw [List.getLast?_cons_cons]
      cases hx : (b :: t).getLast? with
      | none => exact absurd (List.getLast?_eq_none_iff.mp hx) (by simp)
      | some z => rfl

/-- C4: for every request batch whose size is not exactly 1, preprocessing
raises the batch-size precondition error, and the handler therefore fails
with that error for every possible engine, before any generation call. -/
theorem c4_batch_size_precondition (md : String) (adapters : List (String × Json))
    (lora_ids : LoraMap) (rid : String) (created : Int) (requests : List ReqItem)
    (h : requests.length ≠ 1) :
    preprocess md adapters lora_ids requests
      = .error (.assertionError "Expecting batch_size = 1") ∧
    ∀ engine : Engine, handle md adapters lora_ids engine rid created requests
      = .error (.assertionError "Expecting batch_size = 1") := by
  cases requests with
  | nil => exact ⟨rfl, fun _ => rfl⟩
  | cons a t =>
    cases t with
    | nil => simp at h
    | cons b t2 => exact ⟨rfl, fun _ => rfl⟩

/-- Witness for C4 at the empty batch. -/
theorem c4_batch_size_precondition_witness :
    ([] : List ReqItem).length ≠ 1 ∧
    (preprocess "model" [] [] [] = .error (.assertionError "Expecting batch_size = 1") ∧
     ∀ engine : Engine, handle "model" [] [] engine "req0" 0 []
       = .error (.assertionError "Expecting batch_size = 1")) :=
  ⟨by decide, c4_batch_size_precondition "model" [] [] "req0" 0 [] (by decide)⟩

/-- C10: with an empty event sequence, or a streaming request whose events are
all final, `inference` fails with an unbound-variable error (`output`
respectively `result`) instead of returning a response. -/
theorem c10_unbound_variable (rid : String) (created : Int) (prompt : Option Json)
    (params : PyObj) (lora : Option LoRARequest) (events : List RequestOutput)
    (hfin : ∀ e ∈ events, e.finished = true) :
    inference (fun _ _ _ _ => []) rid created [(prompt, .jbool false, params, lora)]
      = .error (.unboundLocal "output") ∧
    inference (fun _ _ _ _ => []) rid created [(prompt, .jbool true, params, lora)]
      = .error (.unboundLocal "result") ∧
    inference (fun _ _ _ _ => events) rid created [(prompt, .jbool true, params, lora)]
      = .error (.unboundLocal "result") := by
  refine ⟨rfl, rfl, ?_⟩
  show consumeEvents (.jbool true) rid created events = _
  unfold consumeEvents
  rw [foldlM_skip (.jbool true) events ⟨0, none, none, []⟩
    (fun e he => by simp [hfin e he])]
  cases events.getLast? <;> rfl

/-- Witness for C10 with a single already-finished event. -/
theorem c10_unbound_variable_witness :
    (∀ e ∈ [RequestOutput.mk true [⟨"done", [1]⟩]], e.finished = true) ∧
    (inference (fun _ _ _ _ => []) "r0" 0 [(none, .jbool false, [], none)]
       = .error (.unboundLocal "output") ∧
     inference (fun _ _ _ _ => []) "r0" 0 [(none, .jbool true, [], none)]
       = .error (.unboundLocal "result") ∧
     inference (fun _ _ _ _ => [RequestOutput.mk true [⟨"done", [1]⟩]]) "r0" 0
         [(none, .jbool true, [], none)]
       = .error (.unboundLocal "result")) :=
  ⟨by decide, c10_unbound_variable "r0" 0 none [] none [RequestOutput.mk true [⟨"done", [1]⟩]]
    (by decide)⟩

/-! Helper lemmas about the permissive attribute merge. -/

theorem pySetattr_keys (o : PyObj) (k : String) (v : Json) :
    (pySetattr o k v).map Prod.fst = o.map Prod.fst := by
  induction o with
  | nil => rfl
  | cons kv rest ih =>
    obtain ⟨k0, v0⟩ := kv
    by_cases hk : k0 = k
    · simp [pySetattr, hk]
    · simp [pySetattr, hk, ih]

theorem pySetattr_lookup_self (o : PyObj) (k : String) (v : Json) :
    (pySetattr o k v).lookup k = if (o.lookup k).isSome then some v else none := by
  induction o with
  | nil => rfl
  | cons kv rest ih =>
    obtain ⟨k0, v0⟩ := kv
    by_cases hk : k0 = k
    · subst hk
      simp [pySetattr, List.lookup]
    · have hbeq : (k == k0) = false := by
        rw [beq_eq_false_iff_ne]
        exact fun h => hk h.symm
      have hps : pySetattr ((k0, v0) :: rest) k v = (k0, v0) :: pySetattr rest k v := by
        simp [pySetattr, hk]
      have hLs : ((k0, v0) :: pySetattr rest k v).lookup k = (pySetattr rest k v).lookup k := by
        simp only [List.lookup, hbeq]
      have hLr : ((k0, v0) :: rest).lookup k = rest.lookup k := by
        simp only [List.lookup, hbeq]
      rw [hps, hLs, hLr, ih]

theorem pySetattr_lookup_other (o : PyObj) (k : String) (v : Json) (k2 : String)
    (h : k2 ≠ k) : (pySetattr o k v).lookup k2 = o.lookup k2 := by
  induction o with
  | nil => rfl
  | cons kv rest ih =>
    obtain ⟨k0, v0⟩ := kv
    by_cases hk : k0 = k
    · subst hk
      have hbeq : (k2 == k0) = false := by simp [h]
      simp [pySetattr, List.lookup, hbeq]
    · by_cases hk2 : k2 = k0
      · subst hk2
        simp [pySetattr, hk, List.lookup]
      · have hbeq : (k2 == k0) = false := by simp [hk2]
        simp [pySetattr, hk, List.lookup, hbeq, ih]

theorem set_attr_keys (config : List (String × Json)) (obj : PyObj) :
    (_set_attr_value obj config).map Prod.fst = obj.map Prod.fst := by
  induction config generalizing obj with
  | nil => rfl
  | cons kv rest ih =>
    show (_set_attr_value (if (obj.lookup kv.1).isSome then pySetattr obj kv.1 kv.2 else obj)
      rest).map Prod.fst = _
    rw [ih]
    split
    · exact pySetattr_keys obj kv.1 kv.2
    · rfl

theorem set_attr_lookup (config : List (String × Json)) (obj : PyObj) (k : String)
    (hnd : (config.map Prod.fst).Nodup) :
    (_set_attr_value obj config).lookup k =
      match config.lookup k with
      | some v => if (obj.lookup k).isSome then some v else obj.lookup k
      | none => obj.lookup k := by
  induction config generalizing obj with
  | nil => rfl
  | cons kv rest ih =>
    obtain ⟨k1, v1⟩ := kv
    have hnd2 : (rest.map Prod.fst).Nodup := (List.nodup_cons.mp hnd).2
    have hk1 : k1 ∉ rest.map Prod.fst := (List.nodup_cons.mp hnd).1
    show (_set_attr_value (if (obj.lookup k1).isSome then pySetattr obj k1 v1 else obj)
      rest).lookup k = _
    rw [ih _ hnd2]
    by_cases hk : k = k1
    · subst hk
      have hrest : rest.lookup k = none := (lookup_none_iff rest k).mpr hk1
      rw [hrest]
      have hcfg : ((k, v1) :: rest).lookup k = some v1 := by
        simp [List.lookup]
      rw [hcfg]
      cases hobj : (obj.lookup k).isSome with
      | true =>
        have hset : (pySetattr obj k v1).lookup k = some v1 := by
          rw [pySetattr_lookup_self, hobj]
          rfl
        simp [hobj, hset]
      | false =>
        simp [hobj]
    · have hbeq : (k == k1) = false := by simp [hk]
      have hcfg : ((k1, v1) :: rest).lookup k = rest.lookup k := by
        simp [List.lookup, hbeq]
      rw [hcfg]
      have hsame : (if (obj.lookup k1).isSome then pySetattr obj k1 v1 else obj).lookup k
          = obj.lookup k := by
        split
        · exact pySetattr_lookup_other obj k1 v1 k hk
        · rfl
      rw [hsame]

/-- C7: the permissive merge writes exactly the override keys that name an
existing attribute, leaves every other attribute at its prior value, silently
ignores unknown keys and never adds attributes; concretely, an engine-config
override map carrying `model = "X"` and an unknown field yields the default
engine arguments with only `model` set to "X". -/
theorem c7_permissive_merge (obj : PyObj) (config : List (String × Json)) (k : String)
    (hnd : (config.map Prod.fst).Nodup) (md : String) (fs : String → Bool) :
    ((_set_attr_value obj config).map Prod.fst = obj.map Prod.fst) ∧
    ((_set_attr_value obj config).lookup k =
      match config.lookup k with
      | some v => if (obj.lookup k).isSome then some v else obj.lookup k
      | none => obj.lookup k) ∧
    (_get_vllm_engine_config md fs
        [("vllm_engine_config", .jobj [("model", .jstr "X"), ("unknown_field", .jint 1)])]
      = .ok (AsyncEngineArgs (.jstr "X"))) :=
  ⟨set_attr_keys config obj, set_attr_lookup config obj k hnd, rfl⟩

/-- Witness for C7 on a two-field object with one recognized and one unknown key. -/
theorem c7_permissive_merge_witness :
    (([("model", Json.jstr "X"), ("unknown_field", Json.jint 1)].map Prod.fst).Nodup) ∧
    (((_set_attr_value [("model", Json.null), ("seed", Json.jint 0)]
        [("model", Json.jstr "X"), ("unknown_field", Json.jint 1)]).map Prod.fst
      = [("model", Json.null), ("seed", Json.jint 0)].map Prod.fst) ∧
    ((_set_attr_value [("model", Json.null), ("seed", Json.jint 0)]
        [("model", Json.jstr "X"), ("unknown_field", Json.jint 1)]).lookup "model" =
      match [("model", Json.jstr "X"), ("unknown_field", Json.jint 1)].lookup "model" with
      | some v =>
        if (([("model", Json.null), ("seed", Json.jint 0)] : PyObj).lookup "model").isSome
        then some v
        else ([("model", Json.null), ("seed", Json.jint 0)] : PyObj).lookup "model"
      | none => ([("model", Json.null), ("seed", Json.jint 0)] : PyObj).lookup "model") ∧
    (_get_vllm_engine_config "mdir" (fun _ => false)
        [("vllm_engine_config", .jobj [("model", .jstr "X"), ("unknown_field", .jint 1)])]
      = .ok (AsyncEngineArgs (.jstr "X")))) :=
  ⟨by decide, c7_permissive_merge [("model", Json.null), ("seed", Json.jint 0)]
    [("model", Json.jstr "X"), ("unknown_field", Json.jint 1)] "model"
    (by decide) "mdir" (fun _ => false)⟩

/-- C6: model-location resolution.  Group A: a non-empty `model` in the
engine-config sub-section is used as-is.  Group B: otherwise a non-empty
relative `model_path` is resolved against the model-artifacts root when the
resolved path exists on disk.  Group C: when the resolved path does not
exist, the raw relative path is used unresolved.  Group D: when neither is
supplied, resolution fails with the configuration assertion error. -/
theorem c6_model_resolution (md : String)
    (fsA : String → Bool) (hcA pA : List (String × Json)) (vA : Json) (lA : Nat)
    (hA1 : pA.lookup "model" = some vA) (hA2 : vA.pyLen? = some lA) (hA3 : lA ≠ 0)
    (fsB : String → Bool) (hcB pB : List (String × Json)) (mpB : String)
    (hB1 : pB.lookup "model" = none) (hB2 : hcB.lookup "model_path" = some (.jstr mpB))
    (hB3 : mpB ≠ "") (hB4 : fsB (pathJoin md mpB) = true)
    (fsC : String → Bool) (hcC pC : List (String × Json)) (mpC : String)
    (hC1 : pC.lookup "model" = none) (hC2 : hcC.lookup "model_path" = some (.jstr mpC))
    (hC3 : mpC ≠ "") (hC4 : fsC (pathJoin md mpC) = false)
    (fsD : String → Bool) (hcD pD : List (String × Json))
    (hD1 : pD.lookup "model" = none) (hD2 : hcD.lookup "model_path" = none) :
    resolveModel md fsA hcA pA = .ok vA ∧
    resolveModel md fsB hcB pB = .ok (.jstr (pathJoin md mpB)) ∧
    resolveModel md fsC hcC pC = .ok (.jstr mpC) ∧
    resolveModel md fsD hcD pD
      = .error (.assertionError
          "please define model in vllm_engine_config or model_path in handler") := by
  refine ⟨?_, ?_, ?_, ?_⟩
  · unfold resolveModel
    rw [hA1]
    show (match vA.pyLen? with
          | none => Except.error PyErr.typeError
          | some l => _) = _
    rw [hA2]
    simp [hA3]
  · unfold resolveModel
    rw [hB1]
    show (if (0 : Nat) = 0 then _ else _) = _
    rw [if_pos rfl, hB2]
    simp only [Option.getD_some]
    simp [Json.pyLen?, Json.asStr?, str_len_pos hB3, hB4]
  · unfold resolveModel
    rw [hC1]
    show (if (0 : Nat) = 0 then _ else _) = _
    rw [if_pos rfl, hC2]
    simp only [Option.getD_some]
    simp [Json.pyLen?, Json.asStr?, str_len_pos hC3, hC4]
  · unfold resolveModel
    rw [hD1, hD2]
    rfl

/-- Witness for C6 covering all four resolution cases at concrete configurations. -/
theorem c6_model_resolution_witness :
    (([("model", Json.jstr "X")] : List (String × Json)).lookup "model"
        = some (Json.jstr "X") ∧
      (Json.jstr "X").pyLen? = some 1 ∧ (1 : Nat) ≠ 0 ∧
      ([] : List (String × Json)).lookup "model" = none ∧
      ([("model_path", Json.jstr "sub")] : List (String × Json)).lookup "model_path"
        = some (Json.jstr "sub") ∧
      ("sub" : String) ≠ "" ∧
      (fun _ : String => true) (pathJoin "root" "sub") = true ∧
      (fun _ : String => false) (pathJoin "root" "sub") = false ∧
      ([] : List (String × Json)).lookup "model_path" = none) ∧
    (resolveModel "root" (fun _ => true) [] [("model", Json.jstr "X")]
        = .ok (Json.jstr "X") ∧
      resolveModel "root" (fun _ => true) [("model_path", Json.jstr "sub")] []
        = .ok (.jstr (pathJoin "root" "sub")) ∧
      resolveModel "root" (fun _ => false) [("model_path", Json.jstr "sub")] []
        = .ok (.jstr "sub") ∧
      resolveModel "root" (fun _ => false) [] []
        = .error (.assertionError
            "please define model in vllm_engine_config or model_path in handler")) :=
  ⟨⟨rfl, rfl, by decide, rfl, rfl, by decide, rfl, rfl, rfl⟩,
    c6_model_resolution "root"
      (fun _ => true) [] [("model", Json.jstr "X")] (Json.jstr "X") 1 rfl rfl (by decide)
      (fun _ => true) [("model_path", Json.jstr "sub")] [] "sub" rfl rfl (by decide) rfl
      (fun _ => false) [("model_path", Json.jstr "sub")] [] "sub" rfl rfl (by decide) rfl
      (fun _ => false) [] [] rfl rfl⟩

/-! Helper lemmas about adapter resolution and the identifier table. -/

theorem glr_resolved (md : String) (adapters : List (String × Json)) (m : LoraMap)
    (n p : String) (hn : n ≠ "") (hp : adapters.lookup n = some (.jstr p)) (hpne : p ≠ "") :
    _get_lora_request md adapters m [("lora_adapter", .jstr n)]
      = .ok (some ⟨n, (setdefault m n (m.length + 1)).1, pathJoin md p⟩,
             (setdefault m n (m.length + 1)).2) := by
  unfold _get_lora_request
  simp [List.lookup, Json.pyLen?, Json.asStr?, hp, str_len_pos hn, str_len_pos hpne]

theorem glr_no_adapter (md : String) (adapters : List (String × Json)) (m : LoraMap)
    (d : List (String × Json)) (h : d.lookup "lora_adapter" = none) :
    _get_lora_request md adapters m d = .ok (none, m) := by
  unfold _get_lora_request
  rw [h]
  rfl

theorem glr_state (md : String) (adapters : List (String × Json)) (m : LoraMap) (n : String)
    (x : Option LoRARequest) (m2 : LoraMap)
    (h : _get_lora_request md adapters m [("lora_adapter", Json.jstr n)] = .ok (x, m2)) :
    m2 = m ∨ (m.lookup n = none ∧ m2 = m ++ [(n, m.length + 1)]) := by
  unfold _get_lora_request at h
  simp only [List.lookup, beq_self_eq_true, Option.getD_some, Json.pyLen?, Json.asStr?] at h
  split at h
  · split at h
    · simp at h
    · split at h
      · split at h
        · simp at h
        · simp only [Except.ok.injEq, Prod.mk.injEq] at h
          obtain ⟨-, h2⟩ := h
          cases hlk : m.lookup n with
          | some v =>
            left
            rw [← h2]
            simp [setdefault, hlk]
          | none =>
            right
            refine ⟨rfl, ?_⟩
            rw [← h2]
            simp [setdefault, hlk]
      · simp at h
  · simp only [Except.ok.injEq, Prod.mk.injEq] at h
    left
    exact h.2.symm

theorem LoraWF_extend (m : LoraMap) (n : String) (hlk : m.lookup n = none)
    (hwf : LoraWF m) : LoraWF (m ++ [(n, m.length + 1)]) := by
  obtain ⟨hids, hnd⟩ := hwf
  constructor
  · simp only [List.map_append, hids, List.length_append, List.map_cons, List.map_nil,
      List.length_cons, List.length_nil, Nat.zero_add]
    rw [List.range'_concat]
    congr 1
    simp
    omega
  · rw [List.map_append]
    have hnot : n ∉ m.map Prod.fst := (lookup_none_iff m n).mp hlk
    simp [List.nodup_append, hnd, hnot]

theorem LoraWF_runLora (md : String) (adapters : List (String × Json)) (ns : List String) :
    ∀ m : LoraMap, LoraWF m → LoraWF (runLora md adapters ns m) := by
  induction ns with
  | nil => exact fun _ h => h
  | cons n ns ih =>
    intro m hwf
    show LoraWF (match _get_lora_request md adapters m [("lora_adapter", Json.jstr n)] with
      | .ok (_, m2) => runLora md adapters ns m2
      | .error _ => runLora md adapters ns m)
    cases hres : _get_lora_request md adapters m [("lora_adapter", Json.jstr n)] with
    | error e => exact ih m hwf
    | ok pr =>
      obtain ⟨x, m2⟩ := pr
      rcases glr_state md adapters m n x m2 hres with h | ⟨hlk, h⟩
      · subst h
        exact ih m2 hwf
      · subst h
        exact ih _ (LoraWF_extend m n hlk hwf)

/-- C3: across any sequence of adapter resolutions starting from the empty
table, the table stays well-formed (identifiers are exactly 1, 2, ... in
first-seen order, never reused); resolving a configured adapter name yields a
reference whose identifier agrees with the stored one when the name was seen
before, equals the table size plus one when the name is fresh, and a second
resolution of the same name returns the same reference and leaves the table
unchanged. -/
theorem c3_adapter_identifier (md : String) (adapters : List (String × Json))
    (ns : List String) (a p : String)
    (ha : a ≠ "") (hp : adapters.lookup a = some (.jstr p)) (hpne : p ≠ "") :
    LoraWF (runLora md adapters ns []) ∧
    ∃ r m2,
      _get_lora_request md adapters (runLora md adapters ns [])
          [("lora_adapter", .jstr a)] = .ok (some r, m2) ∧
      r.lora_name = a ∧
      LoraWF m2 ∧
      _get_lora_request md adapters m2 [("lora_adapter", .jstr a)] = .ok (some r, m2) ∧
      (∀ i, (runLora md adapters ns []).lookup a = some i → r.lora_int_id = i) ∧
      ((runLora md adapters ns []).lookup a = none →
        r.lora_int_id = (runLora md adapters ns []).length + 1 ∧
        m2 = runLora md adapters ns [] ++ [(a, (runLora md adapters ns []).length + 1)]) := by
  have hwf : LoraWF (runLora md adapters ns []) :=
    LoraWF_runLora md adapters ns [] ⟨rfl, List.nodup_nil⟩
  refine ⟨hwf, ?_⟩
  cases hlk : (runLora md adapters ns []).lookup a with
  | some i =>
    refine ⟨⟨a, i, pathJoin md p⟩, runLora md adapters ns [], ?_, rfl, hwf, ?_, ?_, ?_⟩
    · rw [glr_resolved md adapters _ a p ha hp hpne]
      simp [setdefault, hlk]
    · rw [glr_resolved md adapters _ a p ha hp hpne]
      simp [setdefault, hlk]
    · intro j hj
      exact Option.some.inj hj
    · intro hnone
      simp at hnone
  | none =>
    refine ⟨⟨a, (runLora md adapters ns []).length + 1,
        pathJoin md p⟩,
      runLora md adapters ns [] ++ [(a, (runLora md adapters ns []).length + 1)],
      ?_, rfl, ?_, ?_, ?_, fun _ => ⟨rfl, rfl⟩⟩
    · rw [glr_resolved md adapters _ a p ha hp hpne]
      simp [setdefault, hlk]
    · exact LoraWF_extend _ a hlk hwf
    · rw [glr_resolved md adapters _ a p ha hp hpne]
      have hlk2 : (runLora md adapters ns [] ++
          [(a, (runLora md adapters ns []).length + 1)]).lookup a
          = some ((runLora md adapters ns []).length + 1) := by
        rw [lookup_append_right _ hlk]
        simp [List.lookup]
      simp [setdefault, hlk2]
    · intro j hj
      simp at hj

/-- Witness for C3: name "A" resolved once, then the fresh name "B". -/
theorem c3_adapter_identifier_witness :
    (("B" : String) ≠ "" ∧
     ([("A", Json.jstr "pa"), ("B", Json.jstr "pb")] : List (String × Json)).lookup "B"
       = some (Json.jstr "pb") ∧
     ("pb" : String) ≠ "") ∧
    (LoraWF (runLora "root" [("A", Json.jstr "pa"), ("B", Json.jstr "pb")] ["A"] []) ∧
     ∃ r m2,
       _get_lora_request "root" [("A", Json.jstr "pa"), ("B", Json.jstr "pb")]
           (runLora "root" [("A", Json.jstr "pa"), ("B", Json.jstr "pb")] ["A"] [])
           [("lora_adapter", .jstr "B")] = .ok (some r, m2) ∧
       r.lora_name = "B" ∧
       LoraWF m2 ∧
       _get_lora_request "root" [("A", Json.jstr "pa"), ("B", Json.jstr "pb")] m2
           [("lora_adapter", .jstr "B")] = .ok (some r, m2) ∧
       (∀ i, (runLora "root" [("A", Json.jstr "pa"), ("B", Json.jstr "pb")] ["A"] []).lookup "B"
           = some i → r.lora_int_id = i) ∧
       ((runLora "root" [("A", Json.jstr "pa"), ("B", Json.jstr "pb")] ["A"] []).lookup "B"
           = none →
         r.lora_int_id
           = (runLora "root" [("A", Json.jstr "pa"), ("B", Json.jstr "pb")] ["A"] []).length + 1 ∧
         m2 = runLora "root" [("A", Json.jstr "pa"), ("B", Json.jstr "pb")] ["A"] [] ++
           [("B", (runLora "root" [("A", Json.jstr "pa"), ("B", Json.jstr "pb")] ["A"] []).length
             + 1)])) :=
  ⟨⟨by decide, rfl, by decide⟩,
   c3_adapter_identifier "root" [("A", Json.jstr "pa"), ("B", Json.jstr "pb")] ["A"] "B" "pb"
     (by decide) rfl (by decide)⟩


/-! Helper lemmas connecting preprocessing, the handler entry point and the
inference driver. -/

theorem glr_missing_path (md : String) (adapters : List (String × Json))
    (lora_ids : LoraMap) (d : List (String × Json)) (a : String) (ha : a ≠ "")
    (h1 : d.lookup "lora_adapter" = some (.jstr a))
    (hmiss : ((adapters.lookup a).getD (.jstr "")).pyLen? = some 0) :
    _get_lora_request md adapters lora_ids d
      = .error (.assertionError (a ++ " misses adapter path")) := by
  unfold _get_lora_request
  rw [h1]
  simp only [Option.getD_some]
  have e1 : (Json.jstr a).pyLen? = some a.length := rfl
  have e2 : (Json.jstr a).asStr? = some a := rfl
  simp only [e1, e2]
  rw [if_pos (str_len_pos ha), hmiss]
  rfl

theorem preprocess_dict (md : String) (adapters : List (String × Json))
    (lora_ids : LoraMap) (d : List (String × Json)) (hd : d ≠ []) :
    preprocess md adapters lora_ids [⟨some (.dict d), none⟩]
      = match _get_lora_request md adapters lora_ids d with
        | .ok (lr, m2) =>
          .ok ([(d.lookup "prompt", (d.lookup "stream").getD (.jbool false),
                _get_sampling_params d, lr)], m2)
        | .error e => .error e := by
  have htr : (PyVal.dict d).truthy = true := by
    simp [PyVal.truthy, hd]
  simp only [preprocess, htr, if_true, normalizePayload, prepare_completion_request]
  cases _get_lora_request md adapters lora_ids d with
  | error e => rfl
  | ok pr =>
    obtain ⟨lr, m2⟩ := pr
    rfl

theorem handle_unfold (md : String) (adapters : List (String × Json)) (lora_ids : LoraMap)
    (engine : Engine) (rid : String) (created : Int) (requests : List ReqItem) :
    handle md adapters lora_ids engine rid created requests
      = match preprocess md adapters lora_ids requests with
        | .error e => .error e
        | .ok (batch, _) =>
          match inference engine rid created batch with
          | .error e => .error e
          | .ok out => .ok out := by
  unfold handle
  cases preprocess md adapters lora_ids requests with
  | error e => rfl
  | ok pr =>
    obtain ⟨batch, m⟩ := pr
    cases inference engine rid created batch with
    | error e => rfl
    | ok out => rfl

theorem handle_of_preprocess (md : String) (adapters : List (String × Json))
    (lora_ids : LoraMap) (engine : Engine) (rid : String) (created : Int)
    (requests : List ReqItem) (prompt : Option Json) (stream : Json) (params : PyObj)
    (lora : Option LoRARequest) (m2 : LoraMap)
    (hpre : preprocess md adapters lora_ids requests
      = .ok ([(prompt, stream, params, lora)], m2)) :
    handle md adapters lora_ids engine rid created requests
      = match consumeEvents stream rid created (engine prompt params rid lora) with
        | .error e => .error e
        | .ok out => .ok out := by
  rw [handle_unfold, hpre]
  rfl

/-- C5: a request naming a non-empty adapter that is absent from the adapters
table or maps to an empty path raises the adapter-path assertion error, and
the handler fails identically for every engine (no generation call); a request
giving no adapter name resolves to an absent adapter reference and
preprocessing produces the normalized tuple with no adapter, so generation
proceeds without one. -/
theorem c5_adapter_resolution (md : String) (adapters : List (String × Json))
    (lora_ids : LoraMap) (rid : String) (created : Int)
    (d1 : List (String × Json)) (a : String) (ha : a ≠ "")
    (h1 : d1.lookup "lora_adapter" = some (.jstr a))
    (hmiss : ((adapters.lookup a).getD (.jstr "")).pyLen? = some 0)
    (d2 : List (String × Json)) (h2 : d2.lookup "lora_adapter" = none) (hd2 : d2 ≠ []) :
    (_get_lora_request md adapters lora_ids d1
      = .error (.assertionError (a ++ " misses adapter path"))) ∧
    (∀ engine : Engine,
      handle md adapters lora_ids engine rid created [⟨some (.dict d1), none⟩]
        = .error (.assertionError (a ++ " misses adapter path"))) ∧
    (_get_lora_request md adapters lora_ids d2 = .ok (none, lora_ids)) ∧
    (preprocess md adapters lora_ids [⟨some (.dict d2), none⟩]
      = .ok ([(d2.lookup "prompt", (d2.lookup "stream").getD (.jbool false),
               _get_sampling_params d2, none)], lora_ids)) := by
  have hglr1 := glr_missing_path md adapters lora_ids d1 a ha h1 hmiss
  have hpre1 : preprocess md adapters lora_ids [⟨some (.dict d1), none⟩]
      = .error (.assertionError (a ++ " misses adapter path")) := by
    rw [preprocess_dict md adapters lora_ids d1 (lookup_some_ne_nil h1), hglr1]
  refine ⟨hglr1, ?_, glr_no_adapter md adapters lora_ids d2 h2, ?_⟩
  · intro engine
    rw [handle_unfold, hpre1]
  · rw [preprocess_dict md adapters lora_ids d2 hd2,
      glr_no_adapter md adapters lora_ids d2 h2]

/-- Witness for C5 with an unknown adapter name and an adapter-free request. -/
theorem c5_adapter_resolution_witness :
    (("ghost" : String) ≠ "" ∧
     ([("prompt", Json.jstr "hi"), ("lora_adapter", Json.jstr "ghost")]
        : List (String × Json)).lookup "lora_adapter" = some (.jstr "ghost") ∧
     ((([] : List (String × Json)).lookup "ghost").getD (.jstr "")).pyLen? = some 0 ∧
     ([("prompt", Json.jstr "hi")] : List (String × Json)).lookup "lora_adapter" = none ∧
     ([("prompt", Json.jstr "hi")] : List (String × Json)) ≠ []) ∧
    ((_get_lora_request "root" [] []
        [("prompt", Json.jstr "hi"), ("lora_adapter", Json.jstr "ghost")]
      = .error (.assertionError ("ghost" ++ " misses adapter path"))) ∧
     (∀ engine : Engine,
       handle "root" [] [] engine "r1" 7
           [⟨some (.dict [("prompt", Json.jstr "hi"), ("lora_adapter", Json.jstr "ghost")]),
             none⟩]
         = .error (.assertionError ("ghost" ++ " misses adapter path"))) ∧
     (_get_lora_request "root" [] [] [("prompt", Json.jstr "hi")] = .ok (none, [])) ∧
     (preprocess "root" [] [] [⟨some (.dict [("prompt", Json.jstr "hi")]), none⟩]
       = .ok ([(([("prompt", Json.jstr "hi")] : List (String × Json)).lookup "prompt",
                (([("prompt", Json.jstr "hi")] : List (String × Json)).lookup "stream").getD
                  (.jbool false),
                _get_sampling_params [("prompt", Json.jstr "hi")], none)], []))) :=
  ⟨⟨by decide, rfl, rfl, rfl, by simp⟩,
   c5_adapter_resolution "root" [] [] "r1" 7
     [("prompt", Json.jstr "hi"), ("lora_adapter", Json.jstr "ghost")] "ghost"
     (by decide) rfl rfl
     [("prompt", Json.jstr "hi")] rfl (by simp)⟩

/-- C1: a single-item batch with a mapping payload, no adapter and a falsy
streaming flag returns exactly one output item, and that item parsed as JSON
carries the engine's full generated text for the prompt in `choices[0].text`,
index 0, null log-probabilities, the caller-supplied request identifier, the
fixed model-name placeholder, and all usage counters at zero; nothing is
pushed as an intermediate response. -/
theorem c1_nonstream_envelope (md : String) (adapters : List (String × Json))
    (lora_ids : LoraMap) (engine : Engine) (rid : String) (created : Int)
    (d : List (String × Json)) (p : Json)
    (hprompt : d.lookup "prompt" = some p)
    (hstream : ((d.lookup "stream").getD (.jbool false)).truthy = false)
    (hlora : d.lookup "lora_adapter" = none)
    (e : RequestOutput) (o : CompletionOutput)
    (hlast : (engine (some p) (_get_sampling_params d) rid none).getLast? = some e)
    (ho : e.outputs[0]? = some o) :
    ∃ j, handle md adapters lora_ids engine rid created [⟨some (.dict d), none⟩]
        = .ok ([], [j]) ∧
      ((j.get? "choices").bind (Json.idx? · 0)).bind (Json.get? · "text")
        = some (.jstr (engineFullText (engine (some p) (_get_sampling_params d) rid none))) ∧
      ((j.get? "choices").bind (Json.idx? · 0)).bind (Json.get? · "index")
        = some (.jint 0) ∧
      ((j.get? "choices").bind (Json.idx? · 0)).bind (Json.get? · "logprobs")
        = some .null ∧
      j.get? "id" = some (.jstr rid) ∧
      j.get? "model" = some (.jstr "model_name") ∧
      (j.get? "usage").bind (Json.get? · "prompt_tokens") = some (.jint 0) ∧
      (j.get? "usage").bind (Json.get? · "completion_tokens") = some (.jint 0) ∧
      (j.get? "usage").bind (Json.get? · "total_tokens") = some (.jint 0) := by
  have hglr := glr_no_adapter md adapters lora_ids d hlora
  have hpre : preprocess md adapters lora_ids [⟨some (.dict d), none⟩]
      = .ok ([(some p, (d.lookup "stream").getD (.jbool false),
              _get_sampling_params d, none)], lora_ids) := by
    rw [preprocess_dict md adapters lora_ids d (lookup_some_ne_nil hprompt), hglr, hprompt]
  have heft : engineFullText (engine (some p) (_get_sampling_params d) rid none) = o.text := by
    simp [engineFullText, hlast, ho]
  have hcons : consumeEvents ((d.lookup "stream").getD (.jbool false)) rid created
      (engine (some p) (_get_sampling_params d) rid none)
      = .ok ([], [(CompletionResponse.mk rid created "model_name"
          [CompletionResponseChoice.mk 0 o.text] (UsageInfo.mk 0 0 0)).toJson]) := by
    unfold consumeEvents
    rw [foldlM_skip _ _ _ (fun ev _ => by simp [hstream])]
    simp only [hstream, hlast, Bool.not_false, if_true, ho]
  rw [heft]
  refine ⟨(CompletionResponse.mk rid created "model_name"
      [CompletionResponseChoice.mk 0 o.text] (UsageInfo.mk 0 0 0)).toJson,
    ?_, rfl, rfl, rfl, rfl, rfl, rfl, rfl, rfl⟩
  rw [handle_of_preprocess md adapters lora_ids engine rid created _ (some p)
      ((d.lookup "stream").getD (.jbool false)) (_get_sampling_params d) none lora_ids hpre,
    hcons]

/-- Witness for C1 with a one-event engine producing "hello world". -/
theorem c1_nonstream_envelope_witness :
    (([("prompt", Json.jstr "hi")] : List (String × Json)).lookup "prompt"
        = some (Json.jstr "hi") ∧
     ((([("prompt", Json.jstr "hi")] : List (String × Json)).lookup "stream").getD
        (.jbool false)).truthy = false ∧
     ([("prompt", Json.jstr "hi")] : List (String × Json)).lookup "lora_adapter" = none ∧
     ([RequestOutput.mk true [⟨"hello world", [3, 4]⟩]].getLast?
        = some (RequestOutput.mk true [⟨"hello world", [3, 4]⟩])) ∧
     ((RequestOutput.mk true [⟨"hello world", [3, 4]⟩]).outputs[0]?
        = some ⟨"hello world", [3, 4]⟩)) ∧
    (∃ j, handle "root" [] []
          (fun _ _ _ _ => [RequestOutput.mk true [⟨"hello world", [3, 4]⟩]])
          "req-1" 5 [⟨some (.dict [("prompt", Json.jstr "hi")]), none⟩]
        = .ok ([], [j]) ∧
      ((j.get? "choices").bind (Json.idx? · 0)).bind (Json.get? · "text")
        = some (.jstr (engineFullText
            ((fun _ _ _ _ => [RequestOutput.mk true [⟨"hello world", [3, 4]⟩]] : Engine)
              (some (Json.jstr "hi"))
              (_get_sampling_params [("prompt", Json.jstr "hi")]) "req-1" none))) ∧
      ((j.get? "choices").bind (Json.idx? · 0)).bind (Json.get? · "index")
        = some (.jint 0) ∧
      ((j.get? "choices").bind (Json.idx? · 0)).bind (Json.get? · "logprobs")
        = some .null ∧
      j.get? "id" = some (.jstr "req-1") ∧
      j.get? "model" = some (.jstr "model_name") ∧
      (j.get? "usage").bind (Json.get? · "prompt_tokens") = some (.jint 0) ∧
      (j.get? "usage").bind (Json.get? · "completion_tokens") = some (.jint 0) ∧
      (j.get? "usage").bind (Json.get? · "total_tokens") = some (.jint 0)) :=
  ⟨⟨rfl, rfl, rfl, rfl, rfl⟩,
   c1_nonstream_envelope "root" [] []
     (fun _ _ _ _ => [RequestOutput.mk true [⟨"hello world", [3, 4]⟩]]) "req-1" 5
     [("prompt", Json.jstr "hi")] (Json.jstr "hi") rfl rfl rfl
     (RequestOutput.mk true [⟨"hello world", [3, 4]⟩]) ⟨"hello world", [3, 4]⟩ rfl rfl⟩

/-- C8 counterexample: a bytes payload that decodes cleanly as UTF-8 still
fails with an attribute error instead of producing a normalized tuple, because
the decoded text is never parsed into a mapping before field extraction. -/
theorem c8_bytes_payload_cex :
    utf8Decode [0x78] = some ['x'] ∧
    preprocess "root" [] [] [⟨some (.bytes [0x78]), none⟩] = .error .attributeError :=
  ⟨by decide, rfl⟩

/-- C8 (amended): preprocessing extracts the payload from "data" or, failing
that, "body"; an already-structured mapping produces the normalized tuple
(prompt, streaming flag defaulting to false, sampling parameters, adapter
reference or absent); raw bytes are decoded as UTF-8 but the decoded text then
fails mapping-field extraction with an attribute error instead of producing a
tuple, and non-UTF-8 bytes propagate as a decoding failure. -/
theorem c8_payload_extraction (md : String) (adapters : List (String × Json))
    (lora_ids : LoraMap)
    (d : List (String × Json)) (hd : d ≠ []) (hlora : d.lookup "lora_adapter" = none)
    (d2 : List (String × Json)) (hlora2 : d2.lookup "lora_adapter" = none)
    (bs : List UInt8) (cs : List Char) (hbs : utf8Decode bs = some cs)
    (bs2 : List UInt8) (hbs2 : utf8Decode bs2 = none) :
    (preprocess md adapters lora_ids [⟨some (.dict d), none⟩]
      = .ok ([(d.lookup "prompt", (d.lookup "stream").getD (.jbool false),
              _get_sampling_params d, none)], lora_ids)) ∧
    (preprocess md adapters lora_ids [⟨none, some (.dict d2)⟩]
      = .ok ([(d2.lookup "prompt", (d2.lookup "stream").getD (.jbool false),
              _get_sampling_params d2, none)], lora_ids)) ∧
    (preprocess md adapters lora_ids [⟨some (.bytes bs), none⟩] = .error .attributeError) ∧
    (preprocess md adapters lora_ids [⟨some (.bytes bs2), none⟩]
      = .error .unicodeDecodeError) := by
  refine ⟨?_, ?_, ?_, ?_⟩
  · rw [preprocess_dict md adapters lora_ids d hd, glr_no_adapter md adapters lora_ids d hlora]
  · simp only [preprocess, normalizePayload, prepare_completion_request,
      glr_no_adapter md adapters lora_ids d2 hlora2]
  · cases bs with
    | nil => rfl
    | cons b t =>
      have htr : (PyVal.bytes (b :: t)).truthy = true := by
        simp [PyVal.truthy]
      simp only [preprocess, htr, if_true, normalizePayload, hbs, prepare_completion_request]
  · have hne : bs2 ≠ [] := by
      intro he
      rw [he] at hbs2
      exact absurd hbs2 (by decide)
    cases bs2 with
    | nil => exact absurd rfl hne
    | cons b t =>
      have htr : (PyVal.bytes (b :: t)).truthy = true := by
        simp [PyVal.truthy]
      simp only [preprocess, htr, if_true, normalizePayload, hbs2]

/-- Witness for C8's amended statement at concrete payloads. -/
theorem c8_payload_extraction_witness :
    (([("prompt", Json.jstr "hi")] : List (String × Json)) ≠ [] ∧
     ([("prompt", Json.jstr "hi")] : List (String × Json)).lookup "lora_adapter" = none ∧
     ([("prompt", Json.jstr "yo")] : List (String × Json)).lookup "lora_adapter" = none ∧
     utf8Decode [0x68] = some ['h'] ∧
     utf8Decode [0xFF] = none) ∧
    ((preprocess "root" [] [] [⟨some (.dict [("prompt", Json.jstr "hi")]), none⟩]
      = .ok ([(([("prompt", Json.jstr "hi")] : List (String × Json)).lookup "prompt",
               (([("prompt", Json.jstr "hi")] : List (String × Json)).lookup "stream").getD
                 (.jbool false),
               _get_sampling_params [("prompt", Json.jstr "hi")], none)], [])) ∧
     (preprocess "root" [] [] [⟨none, some (.dict [("prompt", Json.jstr "yo")])⟩]
      = .ok ([(([("prompt", Json.jstr "yo")] : List (String × Json)).lookup "prompt",
               (([("prompt", Json.jstr "yo")] : List (String × Json)).lookup "stream").getD
                 (.jbool false),
               _get_sampling_params [("prompt", Json.jstr "yo")], none)], [])) ∧
     (preprocess "root" [] [] [⟨some (.bytes [0x68]), none⟩] = .error .attributeError) ∧
     (preprocess "root" [] [] [⟨some (.bytes [0xFF]), none⟩]
      = .error .unicodeDecodeError)) :=
  ⟨⟨by simp, rfl, rfl, by decide, by decide⟩,
   c8_payload_extraction "root" [] [] [("prompt", Json.jstr "hi")] (by simp) rfl
     [("prompt", Json.jstr "yo")] rfl
     [0x68] ['h'] (by decide) [0xFF] (by decide)⟩

/-! Helper lemma tracking the last assembled streaming result through the loop. -/

theorem stream_result_run (stream : Json) (hs : stream.truthy = true)
    (events : List RequestOutput) :
    ∀ st : InferState,
    (∀ e ∈ events, e.finished = false → ∃ o, e.outputs[0]? = some o ∧ o.token_ids ≠ []) →
    ∃ st2, events.foldlM (inferStep stream) st = .ok st2 ∧
      (nfTexts events = [] → st2.result = st.result ∧ st2.pushed = st.pushed) ∧
      (nfTexts events ≠ [] →
        ∃ r, st2.result = some r ∧ st2.pushed.getLast? = some (mkIntermediate r)) := by
  induction events with
  | nil =>
    intro st _
    exact ⟨st, rfl, fun _ => ⟨rfl, rfl⟩, fun hne => absurd rfl hne⟩
  | cons e rest ih =>
    intro st h
    by_cases hf : e.finished
    · have hstep : inferStep stream st e = .ok { st with output := some e } := by
        simp [inferStep, hf]
      have hnf : nfTexts (e :: rest) = nfTexts rest :=
        nfTexts_cons_final rest (by simpa using hf)
      obtain ⟨st2, hrun, h1, hr⟩ :=
        ih { st with output := some e } (fun x hx hfx => h x (List.mem_cons_of_mem _ hx) hfx)
      refine ⟨st2, ?_, ?_, ?_⟩
      · rw [List.foldlM_cons, hstep]
        exact hrun
      · rw [hnf]
        exact h1
      · rw [hnf]
        exact hr
    · have hf2 : e.finished = false := by simpa using hf
      obtain ⟨o, ho, htok⟩ := h e (List.mem_cons_self e rest) hf2
      obtain ⟨t, ht⟩ : ∃ t, o.token_ids.getLast? = some t := by
        cases hx : o.token_ids.getLast? with
        | none => exact absurd (List.getLast?_eq_none_iff.mp hx) htok
        | some t => exact ⟨t, rfl⟩
      have hstep : inferStep stream st e
          = .ok ⟨o.text.length, some e, some ⟨o.text.drop st.text_len, t⟩,
                 st.pushed ++ [mkIntermediate ⟨o.text.drop st.text_len, t⟩]⟩ := by
        simp [inferStep, hf2, hs, ho, ht]
      have hnf := nfTexts_cons_nonfinal rest hf2 ho
      obtain ⟨st2, hrun, h1, hr⟩ :=
        ih ⟨o.text.length, some e, some ⟨o.text.drop st.text_len, t⟩,
            st.pushed ++ [mkIntermediate ⟨o.text.drop st.text_len, t⟩]⟩
          (fun x hx hfx => h x (List.mem_cons_of_mem _ hx) hfx)
      refine ⟨st2, ?_, ?_, ?_⟩
      · rw [List.foldlM_cons, hstep]
        exact hrun
      · rw [hnf]
        intro hh
        simp at hh
      · intro _
        by_cases hrest : nfTexts rest = []
        · obtain ⟨hr1, hr2⟩ := h1 hrest
          refine ⟨⟨o.text.drop st.text_len, t⟩, hr1, ?_⟩
          rw [hr2]
          exact List.getLast?_concat _
        · exact hr hrest

/-- C9: for a streaming request with at least one non-final event, the final
value returned by `inference` is a single-item list holding the JSON
serialization of the last assembled intermediate result, identical in shape to
the last pushed intermediate response. -/
theorem c9_stream_final_shape (rid : String) (created : Int) (prompt : Option Json)
    (params : PyObj) (lora : Option LoRARequest) (events : List RequestOutput)
    (h2 : ∀ e ∈ events, e.finished = false → ∃ o, e.outputs[0]? = some o ∧ o.token_ids ≠ [])
    (hne : nfTexts events ≠ []) :
    ∃ ps r,
      inference (fun _ _ _ _ => events) rid created [(prompt, .jbool true, params, lora)]
        = .ok (ps, [StreamResult.toJson r]) ∧
      ps.getLast? = some (mkIntermediate r) := by
  obtain ⟨st2, hrun, -, hr⟩ := stream_result_run (.jbool true) rfl events ⟨0, none, none, []⟩ h2
  obtain ⟨r, hres, hlast⟩ := hr hne
  refine ⟨st2.pushed, r, ?_, hlast⟩
  show consumeEvents (.jbool true) rid created events = _
  unfold consumeEvents
  rw [hrun]
  simp [Json.truthy, hres]

/-- Witness for C9 with one intermediate and one final event. -/
theorem c9_stream_final_shape_witness :
    ((∀ e ∈ [RequestOutput.mk false [⟨"ab", [9]⟩], RequestOutput.mk true [⟨"abc", [9, 10]⟩]],
        e.finished = false → ∃ o, e.outputs[0]? = some o ∧ o.token_ids ≠ []) ∧
     nfTexts [RequestOutput.mk false [⟨"ab", [9]⟩], RequestOutput.mk true [⟨"abc", [9, 10]⟩]]
       ≠ []) ∧
    (∃ ps r,
      inference (fun _ _ _ _ =>
          [RequestOutput.mk false [⟨"ab", [9]⟩], RequestOutput.mk true [⟨"abc", [9, 10]⟩]])
          "r9" 2 [(none, .jbool true, [], none)]
        = .ok (ps, [StreamResult.toJson r]) ∧
      ps.getLast? = some (mkIntermediate r)) :=
  ⟨⟨by
      intro e he hf
      simp only [List.mem_cons, List.not_mem_nil, or_false] at he
      rcases he with rfl | rfl
      · exact ⟨⟨"ab", [9]⟩, rfl, by decide⟩
      · simp at hf,
    by decide⟩,
   c9_stream_final_shape "r9" 2 none [] none
     [RequestOutput.mk false [⟨"ab", [9]⟩], RequestOutput.mk true [⟨"abc", [9, 10]⟩]]
     (by
       intro e he hf
       simp only [List.mem_cons, List.not_mem_nil, or_false] at he
       rcases he with rfl | rfl
       · exact ⟨⟨"ab", [9]⟩, rfl, by decide⟩
       · simp at hf)
     (by decide)⟩

/-- C2 counterexample: when the final event carries text beyond the last
non-final event (the engine's final token arrives with the finished event),
the concatenated intermediate texts miss that suffix: the loop pushes "a"
only, while the engine's full generated text is "ab". -/
theorem c2_stream_concat_cex :
    inference (fun _ _ _ _ =>
        [RequestOutput.mk false [⟨"a", [5]⟩], RequestOutput.mk true [⟨"ab", [5, 7]⟩]])
      "r2" 0 [(none, .jbool true, [], none)]
      = .ok ([mkIntermediate ⟨"a", 5⟩], [StreamResult.toJson ⟨"a", 5⟩]) ∧
    joinTexts [mkIntermediate ⟨"a", 5⟩] = "a" ∧
    engineFullText
      [RequestOutput.mk false [⟨"a", [5]⟩], RequestOutput.mk true [⟨"ab", [5, 7]⟩]]
      = "ab" ∧
    ("a" : String) ≠ "ab" :=
  ⟨rfl, rfl, rfl, by decide⟩

/-- Main streaming-loop invariant: under prefix-monotone non-final texts, the
loop succeeds and the concatenated pushed texts advance exactly from `prev` to
the last non-final accumulated text, pushing one well-shaped intermediate
response per non-final event and nothing for final events. -/
theorem stream_run (stream : Json) (hs : stream.truthy = true)
    (events : List RequestOutput) :
    ∀ (st : InferState) (prev : String),
    (∀ e ∈ events, e.finished = false → ∃ o, e.outputs[0]? = some o ∧ o.token_ids ≠ []) →
    st.text_len = prev.length →
    List.Chain' IsPre (prev :: nfTexts events) →
    ∃ st2, events.foldlM (inferStep stream) st = .ok st2 ∧
      joinTexts st2.pushed
        = joinTexts st.pushed ++ ((nfTexts events).getLast?.getD prev).drop prev.length ∧
      st2.pushed.length = st.pushed.length + (nfTexts events).length ∧
      (∀ q ∈ st2.pushed, q ∈ st.pushed ∨ ∃ r : StreamResult, q = mkIntermediate r) := by
  induction events with
  | nil =>
    intro st prev _ _ _
    refine ⟨st, rfl, ?_, by simp [nfTexts], fun q hq => Or.inl hq⟩
    show joinTexts st.pushed = joinTexts st.pushed ++ prev.drop prev.length
    rw [sdrop_self, String.append_empty]
  | cons e rest ih =>
    intro st prev h hlen hchain
    by_cases hf : e.finished
    · have hstep : inferStep stream st e = .ok { st with output := some e } := by
        simp [inferStep, hf]
      have hnf : nfTexts (e :: rest) = nfTexts rest :=
        nfTexts_cons_final rest (by simpa using hf)
      rw [hnf] at hchain
      obtain ⟨st2, hrun, hjoin, hlen2, hmem⟩ := ih { st with output := some e } prev
        (fun x hx hfx => h x (List.mem_cons_of_mem _ hx) hfx) hlen hchain
      rw [hnf]
      refine ⟨st2, ?_, hjoin, hlen2, hmem⟩
      rw [List.foldlM_cons, hstep]
      exact hrun
    · have hf2 : e.finished = false := by simpa using hf
      obtain ⟨o, ho, htok⟩ := h e (List.mem_cons_self e rest) hf2
      obtain ⟨t, ht⟩ : ∃ t, o.token_ids.getLast? = some t := by
        cases hx : o.token_ids.getLast? with
        | none => exact absurd (List.getLast?_eq_none_iff.mp hx) htok
        | some t => exact ⟨t, rfl⟩
      have hstep : inferStep stream st e
          = .ok ⟨o.text.length, some e, some ⟨o.text.drop st.text_len, t⟩,
                 st.pushed ++ [mkIntermediate ⟨o.text.drop st.text_len, t⟩]⟩ := by
        simp [inferStep, hf2, hs, ho, ht]
      have hnf := nfTexts_cons_nonfinal rest hf2 ho
      rw [hnf] at hchain
      rw [List.chain'_cons] at hchain
      obtain ⟨hpre, hchain2⟩ := hchain
      obtain ⟨c, hc⟩ := hpre
      have hdrop : o.text.drop st.text_len = c := by
        rw [hlen, hc, sdrop_append]
      obtain ⟨st2, hrun, hjoin, hlen2, hmem⟩ := ih
        ⟨o.text.length, some e, some ⟨o.text.drop st.text_len, t⟩,
         st.pushed ++ [mkIntermediate ⟨o.text.drop st.text_len, t⟩]⟩ o.text
        (fun x hx hfx => h x (List.mem_cons_of_mem _ hx) hfx) rfl hchain2
      refine ⟨st2, ?_, ?_, ?_, ?_⟩
      · rw [List.foldlM_cons, hstep]
        exact hrun
      · rw [hjoin]
        show joinTexts (st.pushed ++ [mkIntermediate ⟨o.text.drop st.text_len, t⟩])
            ++ ((nfTexts rest).getLast?.getD o.text).drop o.text.length = _
        rw [joinTexts_concat, intermediateText_mk]
        show joinTexts st.pushed ++ o.text.drop st.text_len
            ++ ((nfTexts rest).getLast?.getD o.text).drop o.text.length = _
        rw [hdrop, hnf, lastD_cons]
        obtain ⟨dd, hdd⟩ := chain_last (nfTexts rest) o.text hchain2
        rw [hdd, sdrop_append, hc, String.append_assoc prev c dd, sdrop_append,
          String.append_assoc]
      · rw [hlen2, hnf]
        simp only [List.length_append, List.length_cons, List.length_nil]
        omega
      · intro q hq
        rcases hmem q hq with hq1 | hq2
        · rcases List.mem_append.mp hq1 with h1 | h1
          · exact Or.inl h1
          · exact Or.inr ⟨⟨o.text.drop st.text_len, t⟩, by simpa using h1⟩
        · exact Or.inr hq2

/-- C2 (amended): for a streaming request whose non-final accumulated texts
grow by prefix extension, every non-final event is pushed exactly once as the
JSON object with "text" and "tokens" fields under success status, nothing is
pushed for the final event, and the intermediate texts concatenated in
emission order equal the engine's accumulated text as of the last non-final
event — text appearing only in the final event is never pushed. -/
theorem c2_stream_concat (rid : String) (created : Int) (prompt : Option Json)
    (params : PyObj) (lora : Option LoRARequest) (events : List RequestOutput)
    (h2 : ∀ e ∈ events, e.finished = false → ∃ o, e.outputs[0]? = some o ∧ o.token_ids ≠ [])
    (hchain : List.Chain' IsPre (nfTexts events))
    (hne : nfTexts events ≠ []) :
    ∃ ps out,
      inference (fun _ _ _ _ => events) rid created [(prompt, .jbool true, params, lora)]
        = .ok (ps, out) ∧
      joinTexts ps = (nfTexts events).getLast?.getD "" ∧
      ps.length = (nfTexts events).length ∧
      (∀ q ∈ ps, ∃ r : StreamResult, q = mkIntermediate r) := by
  have hchain0 : List.Chain' IsPre ("" :: nfTexts events) := by
    rw [List.chain'_cons']
    exact ⟨fun b _ => ⟨b, (String.empty_append b).symm⟩, hchain⟩
  obtain ⟨st2, hrun, hjoin, hlen, hmem⟩ :=
    stream_run (.jbool true) rfl events ⟨0, none, none, []⟩ "" h2 rfl hchain0
  obtain ⟨st2b, hrunb, -, hrb⟩ :=
    stream_result_run (.jbool true) rfl events ⟨0, none, none, []⟩ h2
  rw [hrun] at hrunb
  injection hrunb with heq
  obtain ⟨r, hres, -⟩ := hrb hne
  rw [← heq] at hres
  refine ⟨st2.pushed, [StreamResult.toJson r], ?_, ?_, ?_, ?_⟩
  · show consumeEvents (.jbool true) rid created events = _
    unfold consumeEvents
    rw [hrun]
    simp [Json.truthy, hres]
  · rw [hjoin]
    have h0 : ("" : String).length = 0 := rfl
    rw [h0, sdrop_zero]
    exact String.empty_append _
  · rw [hlen]
    simp
  · intro q hq
    rcases hmem q hq with h1 | h1
    · simp at h1
    · exact h1

/-- Witness for C2's amended statement on a three-event prefix-monotone run. -/
theorem c2_stream_concat_witness :
    ((∀ e ∈ [RequestOutput.mk false [⟨"a", [5]⟩], RequestOutput.mk false [⟨"ab", [6]⟩],
          RequestOutput.mk true [⟨"abc", [7]⟩]],
        e.finished = false → ∃ o, e.outputs[0]? = some o ∧ o.token_ids ≠ []) ∧
     List.Chain' IsPre (nfTexts [RequestOutput.mk false [⟨"a", [5]⟩],
        RequestOutput.mk false [⟨"ab", [6]⟩], RequestOutput.mk true [⟨"abc", [7]⟩]]) ∧
     nfTexts [RequestOutput.mk false [⟨"a", [5]⟩], RequestOutput.mk false [⟨"ab", [6]⟩],
        RequestOutput.mk true [⟨"abc", [7]⟩]] ≠ []) ∧
    (∃ ps out,
      inference (fun _ _ _ _ => [RequestOutput.mk false [⟨"a", [5]⟩],
          RequestOutput.mk false [⟨"ab", [6]⟩], RequestOutput.mk true [⟨"abc", [7]⟩]])
          "rw2" 3 [(none, .jbool true, [], none)]
        = .ok (ps, out) ∧
      joinTexts ps = (nfTexts [RequestOutput.mk false [⟨"a", [5]⟩],
          RequestOutput.mk false [⟨"ab", [6]⟩],
          RequestOutput.mk true [⟨"abc", [7]⟩]]).getLast?.getD "" ∧
      ps.length = (nfTexts [RequestOutput.mk false [⟨"a", [5]⟩],
          RequestOutput.mk false [⟨"ab", [6]⟩],
          RequestOutput.mk true [⟨"abc", [7]⟩]]).length ∧
      (∀ q ∈ ps, ∃ r : StreamResult, q = mkIntermediate r)) :=
  ⟨⟨by
      intro e he hf
      simp only [List.mem_cons, List.not_mem_nil, or_false] at he
      rcases he with rfl | rfl | rfl
      · exact ⟨⟨"a", [5]⟩, rfl, by decide⟩
      · exact ⟨⟨"ab", [6]⟩, rfl, by decide⟩
      · simp at hf,
    by
      show List.Chain' IsPre ["a", "ab"]
      exact List.chain'_cons.mpr ⟨⟨"b", rfl⟩, List.chain'_singleton "ab"⟩,
    by decide⟩,
   c2_stream_concat "rw2" 3 none [] none
     [RequestOutput.mk false [⟨"a", [5]⟩], RequestOutput.mk false [⟨"ab", [6]⟩],
      RequestOutput.mk true [⟨"abc", [7]⟩]]
     (by
       intro e he hf
       simp only [List.mem_cons, List.not_mem_nil, or_false] at he
       rcases he with rfl | rfl | rfl
       · exact ⟨⟨"a", [5]⟩, rfl, by decide⟩
       · exact ⟨⟨"ab", [6]⟩, rfl, by decide⟩
       · simp at hf)
     (by
       show List.Chain' IsPre ["a", "ab"]
       exact List.chain'_cons.mpr ⟨⟨"b", rfl⟩, List.chain'_singleton "ab"⟩)
     (by decide)⟩
